import Mathlib

/-!
# Verification of the `whimsy` command-dispatch and navigation engine

A shallow embedding, in Lean 4, of the core of the `whimsy` repository:

* the chord parser and modifier set (`src/controls/command.rs`),
* the binding table construction (`ChoiceMap` and friends, same file),
* the dispatch step of the event loop (`src/run.rs`),
* the three-level cursor engine (`TabState` in `src/rpg/players/tab.rs`),
* the two-level focus tree (`src/controls/focus.rs`).

Conventions used throughout:

* Rust `usize` values are modelled as `Nat`; a subtraction that would
  underflow (which panics in the Rust build) is modelled by `usizeSub`
  returning `none`.
* A Rust slice index `xs[i]` is modelled by `List.get?`; an out-of-bounds
  access (a panic in Rust) yields `none`.  Operations that can panic
  therefore return `Option _`, with `none` meaning "the Rust code panics".
* Strings scanned by the `nom` parsers are modelled as `List Char`.
* `HashMap` is modelled as an association list with insert-overwrites
  semantics (`assocUpsert`); only lookup and domain membership matter
  to the properties below, and those agree with the hash map.
* `tracing`/`egui-notify` output from the `Observer` helper is modelled
  as a list of `LogMsg` values returned next to each operation's result.
-/

namespace Whimsy

/-- `usize` subtraction: `none` models the arithmetic-underflow panic of the
Rust build (in release mode the wrapped value immediately indexes out of
bounds, which also panics, so `none` is the observable outcome either way). -/
def usizeSub (a b : Nat) : Option Nat :=
  if b ≤ a then some (a - b) else none

/-- `nom::bytes::complete::tag`: consume the literal `t` from the front of
`s`, returning the remainder, or fail. -/
def tag : List Char → List Char → Option (List Char)
  | [], s => some s
  | _ :: _, [] => none
  | t :: ts, c :: cs => if t = c then tag ts cs else none

/-- `nom::character::complete::space0`: drop leading spaces and tabs
(never fails). -/
def space0 (s : List Char) : List Char :=
  s.dropWhile fun c => c = ' ' ∨ c = '\t'

/-- `nom::character::complete::alphanumeric1`: take one or more ASCII
alphanumeric characters; returns `(remainder, matched)` like the `nom`
combinator, failing when the first character does not match. -/
def alphanumeric1 (s : List Char) : Option (List Char × List Char) :=
  let m := s.takeWhile Char.isAlphanum
  if m.isEmpty then none else some (s.dropWhile Char.isAlphanum, m)

/-- `Modifiers` from `src/controls/command.rs`: four independent flags.
The same shape also stands in for `winit`'s `ModifiersState`, which carries
exactly the same four flags as far as this crate reads it. -/
structure Modifiers where
  shift_key : Bool
  control_key : Bool
  alt_key : Bool
  super_key : Bool
  deriving DecidableEq

/-- `Modifiers::new` / `Default::default()`: all flags off. -/
def Modifiers.new : Modifiers := ⟨false, false, false, false⟩

/-- `Modifiers::is_none`, transcribed verbatim from the source:
`self.shift_key && self.control_key && self.alt_key && self.super_key`. -/
def Modifiers.is_none (m : Modifiers) : Bool :=
  m.shift_key && m.control_key && m.alt_key && m.super_key

/-- `Modifiers::and`: monotone union of flags into `self`. -/
def Modifiers.and (m other : Modifiers) : Modifiers where
  shift_key := m.shift_key || other.shift_key
  control_key := m.control_key || other.control_key
  alt_key := m.alt_key || other.alt_key
  super_key := m.super_key || other.super_key

/-- `impl fmt::Display for Modifiers`: renders the set flags as bracketed
tokens, in the order super, control, alt, shift.  The super token in the
source file is the literal three-character sequence `âŒ˜` (a mojibake of
the command glyph baked into the source bytes); it is reproduced here
exactly. -/
def Modifiers.render (m : Modifiers) : String :=
  (if m.super_key then "<âŒ˜> + " else "")
    ++ (if m.control_key then "<Cr> + " else "")
    ++ (if m.alt_key then "<Alt> + " else "")
    ++ (if m.shift_key then "<Sh> + " else "")

/-- `ModifiersState::CONTROL` and friends, as read back by
`Modifiers::from(&ModifiersState)`. -/
def MState.CONTROL : Modifiers := ⟨false, true, false, false⟩

def MState.ALT : Modifiers := ⟨false, false, true, false⟩

def MState.SHIFT : Modifiers := ⟨true, false, false, false⟩

def MState.SUPER : Modifiers := ⟨false, false, false, true⟩

/-- `Command` from `src/controls/command.rs`: a base key plus a modifier
set.  Equality is the derived structural equality of the Rust type. -/
structure Command where
  key : List Char
  mods : Modifiers
  deriving DecidableEq

/-- `From<&Option<ModifiersState>> for Modifiers`: `None` contributes no
flags. -/
def Modifiers.ofOpt (m : Option Modifiers) : Modifiers :=
  match m with
  | some n => n
  | none => Modifiers.new

/-- `Command::into_mods`: the bracketed tokens the parser recognizes
(note: all lowercase, unlike the tokens `Display` emits). -/
def Command.into_mods (input : List Char) : Option Modifiers :=
  if input = "cr".data then some MState.CONTROL
  else if input = "control".data then some MState.CONTROL
  else if input = "alt".data then some MState.ALT
  else if input = "shift".data then some MState.SHIFT
  else if input = "super".data then some MState.SUPER
  else none

/-- `Command::separator`: optional whitespace, an optional `+`, optional
whitespace; reports whether a `+` was seen.  Never fails. -/
def Command.separator (s : List Char) : List Char × Bool :=
  let rem := space0 s
  match tag ['+'] rem with
  | some rem2 => (space0 rem2, true)
  | none => (space0 rem, false)

/-- `Command::parse_mod`: a separator, then `<` alphanumeric `>`, then a
separator; yields the modifier the bracketed token maps to (`none` inside
the pair when the token is unknown, which still consumes the bracket). -/
def Command.parse_mod (s : List Char) : Option (List Char × Option Modifiers) := do
  let s1 := (Command.separator s).1
  let r1 ← tag ['<'] s1
  let (r2, bracketed) ← alphanumeric1 r1
  let r3 ← tag ['>'] r2
  let r4 := (Command.separator r3).1
  return (r4, Command.into_mods bracketed)

/-- `Command::is_modifier`: does a modifier token follow (after a
separator)?  The source returns the post-separator remainder as well, but
every caller discards it, so only the boolean is modelled. -/
def Command.is_modifier (s : List Char) : Bool :=
  (Command.parse_mod (Command.separator s).1).isSome

/-- The `while more` loop of `Command::parse_mods`, with explicit fuel.
Each successful `parse_mod` consumes at least the three bracket characters,
so `input.length + 1` units of fuel can never run out on the inputs the
source can reach. -/
def Command.parse_mods_go : Nat → Modifiers → List Char → Option (List Char × Modifiers)
  | 0, _, _ => none
  | fuel + 1, mods, i =>
    if Command.is_modifier i then
      match Command.parse_mod i with
      | none => none
      | some (rem, m) => Command.parse_mods_go fuel (mods.and (Modifiers.ofOpt m)) rem
    else
      some (i, mods)

/-- `Command::parse_mods`: accumulate all leading modifier tokens. -/
def Command.parse_mods (input : List Char) : Option (List Char × Modifiers) :=
  Command.parse_mods_go (input.length + 1) Modifiers.new input

/-- `Command::word`: optional whitespace then one alphanumeric token. -/
def Command.word (input : List Char) : Option (List Char × List Char) :=
  alphanumeric1 (space0 input)

/-- `Command::parse_str`: modifiers then the base key. -/
def Command.parse_str (input : List Char) : Option (List Char × Option Command) := do
  let (rem, mods) ← Command.parse_mods input
  let (rem2, key) ← Command.word rem
  return (rem2, some ⟨key, mods⟩)

/-- `str::to_uppercase` restricted to the strings this parser can produce:
`alphanumeric1` only matches ASCII, on which Unicode uppercasing agrees
with `Char.toUpper`. -/
def toUppercase (s : List Char) : List Char :=
  s.map Char.toUpper

/-- Error type standing in for `polite::FauxPas` (payloads are never
inspected by the code under verification). -/
inductive FauxPas
  | nom (rem : List Char)
  | unknown
  deriving DecidableEq

/-- `Command::parse_cmd`: run `parse_str`; force the shift flag on when the
base key equals its own uppercasing. -/
def Command.parse_cmd (input : List Char) : Except FauxPas Command :=
  match Command.parse_str input with
  | none => .error (.nom input)
  | some (rem, none) => .error (.nom rem)
  | some (_, some cmd) =>
    if cmd.key = toUppercase cmd.key then
      .ok { cmd with mods := { cmd.mods with shift_key := true } }
    else
      .ok cmd

/-- `impl fmt::Display for Command`: modifier prefix then key, except that
a modifier set for which `is_none` answers `true` suppresses the prefix. -/
def Command.render (c : Command) : List Char :=
  if !c.mods.is_none then
    (c.mods.render).data ++ c.key
  else
    c.key

/-! ## Action tokens (`src/controls/act.rs`) -/

/-- `AppAct`: window-level actions. -/
inductive AppAct
  | Help | Menu | Decorations | Fullscreen | Maximize | Minimize | ActiveTab | Be
  deriving DecidableEq

/-- `EguiAct`: widget-level actions. -/
inductive EguiAct
  | Right | Left | Up | Down | Next | Previous | NextWindow | PreviousWindow
  | NextRow | PreviousRow | FocusedLeaf | Be
  deriving DecidableEq

/-- `NamedAct`: named-key actions. -/
inductive NamedAct
  | Enter | Escape | ArrowLeft | ArrowRight | ArrowUp | ArrowDown | Be
  deriving DecidableEq

/-- `Dock`: dock-navigation actions. -/
inductive Dock
  | CurrentTab | NextTab | PreviousTab | NextNode | PreviousNode
  | NextSurface | PreviousSurface | InspectRecords | Be
  deriving DecidableEq

/-- `Act`: the tagged union over the action categories. -/
inductive Act
  | App (a : AppAct)
  | Egui (a : EguiAct)
  | Named (a : NamedAct)
  | DockAct (a : Dock)
  | Be
  deriving DecidableEq

/-- `impl FromStr for AppAct`. -/
def AppAct.from_str (s : String) : Option AppAct :=
  if s = "help" then some .Help
  else if s = "menu" then some .Menu
  else if s = "decorations" then some .Decorations
  else if s = "fullscreen" then some .Fullscreen
  else if s = "maximize" then some .Maximize
  else if s = "minimize" then some .Minimize
  else if s = "active_tab" then some .ActiveTab
  else if s = "be" then some .Be
  else none

/-- `impl FromStr for EguiAct`. -/
def EguiAct.from_str (s : String) : Option EguiAct :=
  if s = "right" then some .Right
  else if s = "left" then some .Left
  else if s = "up" then some .Up
  else if s = "down" then some .Down
  else if s = "next" then some .Next
  else if s = "previous" then some .Previous
  else if s = "next_window" then some .NextWindow
  else if s = "previous_window" then some .PreviousWindow
  else if s = "next_row" then some .NextRow
  else if s = "previous_row" then some .PreviousRow
  else if s = "focused_leaf" then some .FocusedLeaf
  else if s = "be" then some .Be
  else none

/-- `impl FromStr for NamedAct`. -/
def NamedAct.from_str (s : String) : Option NamedAct :=
  if s = "enter" then some .Enter
  else if s = "escape" then some .Escape
  else if s = "arrow_left" then some .ArrowLeft
  else if s = "arrow_right" then some .ArrowRight
  else if s = "arrow_up" then some .ArrowUp
  else if s = "arrow_down" then some .ArrowDown
  else if s = "be" then some .Be
  else none

/-- `impl FromStr for Dock`. -/
def Dock.from_str (s : String) : Option Dock :=
  if s = "select_current" then some .CurrentTab
  else if s = "next_tab" then some .NextTab
  else if s = "previous_tab" then some .PreviousTab
  else if s = "next_node" then some .NextNode
  else if s = "previous_node" then some .PreviousNode
  else if s = "next_surface" then some .NextSurface
  else if s = "previous_surface" then some .PreviousSurface
  else if s = "inspect_records" then some .InspectRecords
  else if s = "be" then some .Be
  else none

/-- `impl FromStr for Act`: try the categories in order, then a
case-insensitive `be`. -/
def Act.from_str (s : String) : Option Act :=
  match AppAct.from_str s with
  | some a => some (.App a)
  | none =>
    match EguiAct.from_str s with
    | some a => some (.Egui a)
    | none =>
      match NamedAct.from_str s with
      | some a => some (.Named a)
      | none =>
        match Dock.from_str s with
        | some a => some (.DockAct a)
        | none =>
          if ⟨s.data.map Char.toLower⟩ = ("be" : String) then some .Be else none

/-! ## Binding table (`ChoiceMap` and friends, `src/controls/command.rs`)

`HashMap<K, V>` appears as `List (K × V)` with `assocUpsert` for `insert`
(overwrite on an existing key) and `assocLookup` for `get`. -/

/-- `HashMap::insert` on the association-list model: the new pair shadows
and removes any earlier binding of the same key. -/
def assocUpsert {α β : Type} [DecidableEq α] (m : List (α × β)) (k : α) (v : β) :
    List (α × β) :=
  (k, v) :: m.filter fun p => ¬ p.1 = k

/-- `HashMap::get` on the association-list model. -/
def assocLookup {α β : Type} [DecidableEq α] (m : List (α × β)) (k : α) : Option β :=
  (m.find? fun p => p.1 = k).map Prod.snd

/-- `HashMap::extend`: insert every pair of the second map. -/
def assocExtend {α β : Type} [DecidableEq α] (m entries : List (α × β)) :
    List (α × β) :=
  entries.foldl (fun acc p => assocUpsert acc p.1 p.2) m

/-- A TOML value, restricted to the shapes `src/controls/command.rs` ever
distinguishes: strings, tables, and everything else. -/
inductive Toml
  | vstr (s : String)
  | table (entries : List (String × Toml))
  | other

/-- `CommandGroup` (the `row_id` field is a freshly drawn `Uuid`, external
randomness that no verified property reads; it is omitted). -/
structure CommandGroup where
  id : String
  name : String
  binding : Command
  help : String
  deriving DecidableEq

/-- `CommandOptions`: a binding resolves to either a group reference or a
list of actions. -/
inductive CommandOptions
  | Commands (g : CommandGroup)
  | Acts (l : List Act)
  deriving DecidableEq

/-- `Choices`: one mode's chord table. -/
abbrev Choices := List (Command × CommandOptions)

/-- `ChoiceMap`: the named modes. -/
abbrev ChoiceMap := List (String × Choices)

/-- One step of the `for key in command_queue` loop of
`CommandGroup::from_toml`, folding the three `Option` slots. -/
def CommandGroup.from_toml_step (acc : Option String × Option Command × Option String)
    (kv : String × Toml) : Option String × Option Command × Option String :=
  if kv.1 = "name" then
    match kv.2 with
    | .vstr s => (some s, acc.2.1, acc.2.2)
    | _ => acc
  else if kv.1 = "binding" then
    match kv.2 with
    | .vstr s =>
      match Command.parse_cmd s.data with
      | .ok cmd => (acc.1, some cmd, acc.2.2)
      | .error _ => acc
    | _ => acc
  else if kv.1 = "help" then
    match kv.2 with
    | .vstr s => (acc.1, acc.2.1, some s)
    | _ => acc
  else acc

/-- `CommandGroup::from_toml`: read `name`, `binding` and `help` from a
table; all three are required. -/
def CommandGroup.from_toml (id : String) (value : Toml) : Option CommandGroup :=
  match value with
  | .table t =>
    let acc := t.foldl CommandGroup.from_toml_step (none, none, none)
    match acc with
    | (some name, some binding, some help) => some ⟨id, name, binding, help⟩
    | _ => none
  | _ => none

/-- The `for key in command_queue` loop of `Choices::from_toml`: a string
value whose command text fails to parse aborts the whole call (the `?` in
the source); a key that is not a known action is skipped. -/
def Choices.from_toml_go : List (String × Toml) → Choices → Except FauxPas Choices
  | [], acc => .ok acc
  | (key, v) :: rest, acc =>
    match v with
    | .vstr s =>
      match Command.parse_cmd s.data with
      | .error e => .error e
      | .ok command =>
        match Act.from_str key with
        | some act => Choices.from_toml_go rest (assocUpsert acc command (.Acts [act]))
        | none => Choices.from_toml_go rest acc
    | _ => Choices.from_toml_go rest acc

/-- `Choices::from_toml::<T>` — the type parameter is never used by the
body (lookup goes through `Act::from_str`), so it is dropped here. -/
def Choices.from_toml (value : Toml) : Except FauxPas Choices :=
  match value with
  | .table t => Choices.from_toml_go t []
  | _ => .error .unknown

/-- `Choices::try_from_toml`: the source calls `from_toml` three times (for
the `AppAct`, `EguiAct` and `NamedAct` instantiations, all identical) and
extends the accumulator with each successful result. -/
def Choices.try_from_toml (value : Toml) : Option Choices :=
  let choices : Choices := []
  let choices := match Choices.from_toml value with
    | .ok entry => assocExtend choices entry
    | .error _ => choices
  let choices := match Choices.from_toml value with
    | .ok entry => assocExtend choices entry
    | .error _ => choices
  let choices := match Choices.from_toml value with
    | .ok entry => assocExtend choices entry
    | .error _ => choices
  if choices.isEmpty then none else some choices

/-- `ChoiceMap::from_toml`: every key of the `groups` table whose value
yields choices becomes a mode of that name; an empty result is `None`. -/
def ChoiceMap.from_toml (value : Toml) : Option ChoiceMap :=
  match value with
  | .table t =>
    let cm : ChoiceMap := t.foldl
      (fun cm kv =>
        match Choices.try_from_toml kv.2 with
        | some c => assocUpsert cm kv.1 c
        | none => cm)
      []
    if cm.isEmpty then none else some cm
  | _ => none

/-- One step of the `for key in command_queue` loop of
`ChoiceMap::command_group`: an entry is only read when a mode of the same
name already exists, and its group binding is only stored when a mode
named `normal` exists. -/
def ChoiceMap.command_group_step (cm : ChoiceMap) (kv : String × Toml) : ChoiceMap :=
  if (assocLookup cm kv.1).isSome then
    match CommandGroup.from_toml kv.1 kv.2 with
    | some cmds =>
      match assocLookup cm "normal" with
      | some normal => assocUpsert cm "normal" (assocUpsert normal cmds.binding (.Commands cmds))
      | none => cm
    | none => cm
  else cm

/-- `ChoiceMap::command_group` (the method always returns `Ok(())` in the
source; only the map mutation is modelled). -/
def ChoiceMap.command_group (cm : ChoiceMap) (value : Toml) : ChoiceMap :=
  match value with
  | .table t => t.foldl ChoiceMap.command_group_step cm
  | _ => cm

/-- `ChoiceMap::with_config`.  The argument is the result of
`String::from_utf8_lossy(config).parse::<Table>()` on the embedded
configuration text: `none` when the text is not valid TOML.  The source
calls `.unwrap()` on that result and indexes `config["groups"]` and
`config["commands"]` with the panicking `Index` impl, so each of those
three spots maps to a `none` ("the process panics") outcome here. -/
def ChoiceMap.with_config (parsed : Option (List (String × Toml))) : Option ChoiceMap :=
  match parsed with
  | none => none
  | some config =>
    match assocLookup config "groups" with
    | none => none
    | some groups =>
      let cm : ChoiceMap := []
      let cm := match ChoiceMap.from_toml groups with
        | some c => assocExtend cm c
        | none => cm
      match assocLookup config "commands" with
      | none => none
      | some commands => some (ChoiceMap.command_group cm commands)

/-! ## Dispatch step (`src/run.rs`, lines 67–104)

One keyboard chord arriving while `state.command_key` names the active
mode: look the mode up, look the chord up, and either enter a group,
dispatch actions and return to `normal`, or leave everything unchanged.
The returned pair is the new `command_key` and the actions handed to the
per-category handlers. -/
def runStep (command_tree : ChoiceMap) (command_key : String) (command : Command) :
    String × List Act :=
  match assocLookup command_tree command_key with
  | none => (command_key, [])
  | some choices =>
    match assocLookup choices command with
    | none => (command_key, [])
    | some (.Commands c) => (c.id, [])
    | some (.Acts a) => ("normal", a)

/-! ## Cursor engine (`TabState`, `src/rpg/players/tab.rs`)

Surface, node and tab identifiers (`SurfaceIndex`, `NodeIndex`, `TabIndex`
of `egui_dock`, each a newtype over `usize`) are modelled as `Nat`.
`Observer` calls are modelled as `LogMsg` values collected next to each
operation's result; `observer.success` logs at `info` level and raises a
success toast, so it keeps its own level tag here. -/

/-- The level of an `Observer` call (`trace`/`info`/`warn`/`success`). -/
inductive LogLevel
  | trace | info | warn | success
  deriving DecidableEq

/-- One `Observer` message. -/
structure LogMsg where
  level : LogLevel
  text : String
  deriving DecidableEq

/-- `Iterator::position`: index of the first element satisfying `p`. -/
def position {α : Type} (p : α → Bool) : List α → Option Nat
  | [] => none
  | a :: l => if p a then some 0 else (position p l).map (· + 1)

/-- `Record`: one live tab, as `(surface, node, tab)` identifiers. -/
structure Record where
  surface_index : Nat
  node_index : Nat
  tab_index : Nat
  deriving DecidableEq

/-- `Vec::dedup`: remove *consecutive* duplicate values. -/
def dedupConsec : List Nat → List Nat
  | [] => []
  | [a] => [a]
  | a :: b :: rest => if a = b then dedupConsec (b :: rest) else a :: dedupConsec (b :: rest)

namespace Records

/-- `Records::surfaces`. -/
def surfaces (rs : List Record) : List Nat :=
  dedupConsec (rs.map Record.surface_index)

/-- `Records::nodes`. -/
def nodes (rs : List Record) : List Nat :=
  dedupConsec (rs.map Record.node_index)

/-- `Records::tabs`. -/
def tabs (rs : List Record) : List Nat :=
  dedupConsec (rs.map Record.tab_index)

/-- `Records::filter_surface`. -/
def filter_surface (rs : List Record) (surface : Nat) : List Record :=
  rs.filter fun r => r.surface_index = surface

/-- `Records::filter_node`. -/
def filter_node (rs : List Record) (node : Nat) : List Record :=
  rs.filter fun r => r.node_index = node

/-- `Records::node_ids`: positions in `nodes` whose value is a node of the
given surface. -/
def node_ids (rs : List Record) (surface : Nat) : List Nat :=
  let in_surface := nodes (filter_surface rs surface)
  ((nodes rs).enum.filter fun p => in_surface.contains p.2).map Prod.fst

/-- `Records::tab_ids`: positions in `tabs` whose value is a tab of the
given node. -/
def tab_ids (rs : List Record) (node : Nat) : List Nat :=
  let in_node := tabs (filter_node rs node)
  ((tabs rs).enum.filter fun p => in_node.contains p.2).map Prod.fst

end Records

/-- `TabState`, restricted to the navigation-relevant fields.  The
`egui_dock::DockState` tree itself, the tab-name set and the identifier
generator are external collaborators and are not read by any of the cursor
operations below. -/
structure TabState where
  records : List Record
  surfaces : List Nat
  nodes : List Nat
  tabs : List Nat
  surface_index : Option Nat
  node_index : Option Nat
  tab_index : Option Nat
  surface : Nat
  node : Nat
  tab : Nat
  deriving DecidableEq

namespace TabState

/-- `TabState::increment_surface`.  No indexing occurs, so the operation is
total. -/
def increment_surface (s : TabState) : TabState × Bool × List LogMsg :=
  if s.surfaces.isEmpty then
    (s, false, [⟨.warn, "Cannot increment surface on an empty tree."⟩])
  else
    let len := s.surfaces.length
    if len > s.surface + 1 then
      let s2 := { s with surface := s.surface + 1 }
      (s2, true, [⟨.success, "Incrementing surface index."⟩,
        ⟨.success, "Surface index set to " ++ toString s2.surface⟩])
    else if len = 1 then
      (s, false, [⟨.warn,
        "Only one surface in tree. Already on current surface " ++ toString s.surface ++ "."⟩])
    else
      let s2 := { s with surface := 0 }
      (s2, true, [⟨.success, "Wrapping surface index."⟩,
        ⟨.success, "Surface index set to " ++ toString s2.surface⟩])

/-- `TabState::decrement_surface`.  The two `usize` subtractions are both
guarded (`surfaces.len() >= 1` after the emptiness check, and
`self.surface > 0` in the final branch), so plain `Nat` subtraction agrees
with the source. -/
def decrement_surface (s : TabState) : TabState × Bool × List LogMsg :=
  if s.surfaces.isEmpty then
    (s, false, [⟨.warn, "Cannot decrement surface on an empty tree."⟩])
  else
    let len := s.surfaces.length
    if len = 1 ∧ s.surface = 0 then
      (s, false, [⟨.info,
        "Only one surface in tree. Already on current surface " ++ toString s.surface ++ "."⟩])
    else if s.surface = 0 then
      let s2 := { s with surface := len - 1 }
      (s2, true, [⟨.success, "Wrapping surface index."⟩,
        ⟨.success, "Surface index set to " ++ toString s2.surface⟩])
    else
      let s2 := { s with surface := s.surface - 1 }
      (s2, true, [⟨.success, "Decrementing surface index."⟩,
        ⟨.success, "Surface index set to " ++ toString s2.surface⟩])

/-- `TabState::increment_node`.  `none` would mean a panic; every index in
this operation is guarded, as the theorems below show on its reachable
states. -/
def increment_node (s : TabState) : Option (TabState × Bool × List LogMsg) :=
  match s.surface_index with
  | none => some (s, false, [])
  | some surface =>
    let node_ids := Records.node_ids s.records surface
    if node_ids.isEmpty then
      some (s, false, [⟨.warn, "Cannot increment node on an empty tree."⟩])
    else
      match position (fun v => v = s.node) node_ids with
      | some current =>
        let node_len := node_ids.length
        if node_len > current + 1 then
          match node_ids.get? (current + 1) with
          | none => none
          | some v => some ({ s with node := v }, true,
              [⟨.success, "Incrementing node index."⟩])
        else if node_len = 1 then
          some (s, false, [⟨.warn,
            "Only one node in tree. Already on current node " ++ toString s.node ++ "."⟩])
        else
          match node_ids.get? 0 with
          | none => none
          | some v => some ({ s with node := v }, true,
              [⟨.success, "Wrapping node index."⟩])
      | none =>
        match node_ids.get? 0 with
        | none => none
        | some v => some ({ s with node := v }, true,
            [⟨.success, "Current node not in surface, starting at first valid node."⟩])

/-- `TabState::decrement_node`, transcribed with its branch conditions as
written: the wrap branch tests `node_len == 0` (dead under the emptiness
check above it), so a cursor at the first of two or more node ids falls
into the final branch and evaluates `node_ids[current - 1]` with
`current == 0` — a `usize` underflow, hence `none`. -/
def decrement_node (s : TabState) : Option (TabState × Bool × List LogMsg) :=
  match s.surface_index with
  | none => some (s, false, [])
  | some surface =>
    let node_ids := Records.node_ids s.records surface
    if node_ids.isEmpty then
      some (s, false, [⟨.warn, "Cannot decrement node on an empty tree."⟩])
    else
      match position (fun v => v = s.node) node_ids with
      | some current =>
        let node_len := node_ids.length
        if node_len = 1 then
          some (s, false, [⟨.warn,
            "Only one node in tree. Already on current node " ++ toString s.node ++ "."⟩])
        else if node_len = 0 then
          match usizeSub node_len 1 with
          | none => none
          | some j =>
            match node_ids.get? j with
            | none => none
            | some v => some ({ s with node := v }, true,
                [⟨.success, "Wrapping node index."⟩])
        else
          match usizeSub current 1 with
          | none => none
          | some j =>
            match node_ids.get? j with
            | none => none
            | some v => some ({ s with node := v }, true,
                [⟨.success, "Decrementing node index."⟩])
      | none =>
        match node_ids.get? 0 with
        | none => none
        | some v => some ({ s with node := v }, true,
            [⟨.success, "Current node not in surface, starting at first valid node."⟩])

/-- `TabState::increment_tab`. -/
def increment_tab (s : TabState) : Option (TabState × Bool × List LogMsg) :=
  match s.node_index with
  | none => some (s, false, [])
  | some node =>
    let tab_ids := Records.tab_ids s.records node
    if tab_ids.isEmpty then
      some (s, false, [⟨.warn, "Cannot increment tab on an empty tree."⟩])
    else
      match position (fun v => v = s.tab) tab_ids with
      | some current =>
        let tab_len := tab_ids.length
        if tab_len > current + 1 then
          match tab_ids.get? (current + 1) with
          | none => none
          | some v => some ({ s with tab := v }, true,
              [⟨.success, "Incrementing tab index."⟩])
        else if tab_len = 1 then
          some (s, false, [⟨.info,
            "Only one tab in tree. Already on current tab " ++ toString s.tab ++ "."⟩])
        else
          match tab_ids.get? 0 with
          | none => none
          | some v => some ({ s with tab := v }, true,
              [⟨.success, "Wrapping tab index."⟩])
      | none =>
        match tab_ids.get? 0 with
        | none => none
        | some v => some ({ s with tab := v }, true,
            [⟨.success, "Current tab not in surface, starting at first valid tab."⟩])

/-- `TabState::decrement_tab`: unlike `decrement_node`, the wrap branch
tests `current == 0` and is correct. -/
def decrement_tab (s : TabState) : Option (TabState × Bool × List LogMsg) :=
  match s.node_index with
  | none => some (s, false, [])
  | some node =>
    let tab_ids := Records.tab_ids s.records node
    if tab_ids.isEmpty then
      some (s, false, [⟨.warn, "Cannot decrement tab on an empty tree."⟩])
    else
      match position (fun v => v = s.tab) tab_ids with
      | some current =>
        let tab_len := tab_ids.length
        if tab_len = 1 then
          some (s, false, [⟨.info,
            "Only one tab in tree. Already on current tab " ++ toString s.tab ++ "."⟩])
        else if current = 0 then
          match tab_ids.get? (tab_len - 1) with
          | none => none
          | some v => some ({ s with tab := v }, true,
              [⟨.success, "Wrapping tab index."⟩])
        else
          match tab_ids.get? (current - 1) with
          | none => none
          | some v => some ({ s with tab := v }, true,
              [⟨.success, "Decrementing tab index."⟩])
      | none =>
        match tab_ids.get? 0 with
        | none => none
        | some v => some ({ s with tab := v }, true,
            [⟨.success, "Current tab not in surface, starting at first valid tab."⟩])

/-- `TabState::update_active_surface`: an out-of-bounds cursor is reported
as a failure (no repair happens at the surface level). -/
def update_active_surface (s : TabState) : TabState × Bool × List LogMsg :=
  if s.surfaces.isEmpty ∨ s.surfaces.length ≤ s.surface then
    (s, false, [⟨.warn, "Surface index is out of bounds."⟩])
  else
    match s.surfaces.get? s.surface with
    | some value =>
      ({ s with surface_index := some value }, true,
        [⟨.info, "Setting surface index to " ++ toString value⟩])
    | none => (s, false, [⟨.warn, "Surface index is out of bounds."⟩])

/-- `TabState::select_node`: only the `Observer` messages are modelled; the
focus mutation itself goes to the external `egui_dock` tree. -/
def select_node_msgs (s : TabState) : List LogMsg :=
  match s.surface_index with
  | some _ =>
    match s.node_index with
    | some _ => [⟨.success, "Active node set."⟩]
    | none => [⟨.warn, "Missing node index."⟩]
  | none => [⟨.warn, "Missing surface index."⟩]

/-- `TabState::select_current_tab`: messages only, as for `select_node`. -/
def select_current_tab_msgs (s : TabState) : List LogMsg :=
  match s.surface_index with
  | some _ =>
    match s.node_index with
    | some _ =>
      match s.tab_index with
      | some _ => select_node_msgs s ++ [⟨.success, "Active tab set."⟩]
      | none => [⟨.warn, "Missing tab index."⟩]
    | none => [⟨.warn, "Missing node index."⟩]
  | none => [⟨.warn, "Missing surface index."⟩]

/-- `TabState::update_active_node`: keep a still-valid cursor, otherwise
snap to the first valid node (the repair path), reporting success in both
cases. -/
def update_active_node (s : TabState) : Option (TabState × Bool × List LogMsg) :=
  match s.surface_index with
  | none => some (s, false, [⟨.warn, "Active surface must be set to update the active node."⟩])
  | some surface =>
    let node_ids := Records.node_ids s.records surface
    if node_ids.isEmpty then
      some (s, false, [⟨.warn, "No available nodes in active surface."⟩])
    else if node_ids.contains s.node then
      match s.nodes.get? s.node with
      | none => none
      | some value => some ({ s with node_index := some value }, true,
          [⟨.info, "Node index " ++ toString s.node ++ " is valid for active surface."⟩,
           ⟨.success, "Node value set to " ++ toString value⟩])
    else
      match node_ids.get? 0 with
      | none => none
      | some i0 =>
        match s.nodes.get? i0 with
        | none => none
        | some value => some ({ s with node_index := some value }, true,
            [⟨.info, "Node index " ++ toString s.node ++ " is invalid for active surface."⟩,
             ⟨.success, "Setting node to first value in index: " ++ toString value⟩])

/-- `TabState::update_active_tab`: as for the node level, plus the
`select_current_tab` call on success. -/
def update_active_tab (s : TabState) : Option (TabState × Bool × List LogMsg) :=
  match s.node_index with
  | none => some (s, false, [⟨.success, "Active node must be set to update the active tab."⟩])
  | some node =>
    let tab_ids := Records.tab_ids s.records node
    if tab_ids.isEmpty then
      some (s, false, [⟨.info, "No available tabs in active node."⟩])
    else if tab_ids.contains s.tab then
      match s.tabs.get? s.tab with
      | none => none
      | some value =>
        let s2 := { s with tab_index := some value }
        some (s2, true,
          [⟨.trace, "Tab index " ++ toString s.tab ++ " is valid for active node."⟩,
           ⟨.success, "Tab value set to " ++ toString value⟩,
           ⟨.success, "Selecting new tab."⟩] ++ select_current_tab_msgs s2)
    else
      match tab_ids.get? 0 with
      | none => none
      | some i0 =>
        match s.tabs.get? i0 with
        | none => none
        | some value =>
          let s2 := { s with tab_index := some value }
          some (s2, true,
            [⟨.trace, "Tab index " ++ toString s.tab ++ " is invalid for active node."⟩,
             ⟨.success, "Setting tab to first value in index: " ++ toString value⟩,
             ⟨.success, "Selecting new tab."⟩] ++ select_current_tab_msgs s2)

end TabState

/-! ## Focus tree (`src/controls/focus.rs`)

Only the fields the navigation methods read are modelled; `Uuid` values
become `Nat`. -/

/-- `focus::Tree`, restricted to window navigation. -/
structure FocusTree where
  windows : List Nat
  window_index : Nat
  deriving DecidableEq

/-- `Tree::next_window`: on an empty window list, `windows.len() - 1`
underflows (and the subsequent index is out of bounds in release mode), so
the call panics — `none`. -/
def FocusTree.next_window (t : FocusTree) : Option (FocusTree × Nat) :=
  match usizeSub t.windows.length 1 with
  | none => none
  | some last =>
    let t2 := if t.window_index + 1 > last then { t with window_index := 0 }
      else { t with window_index := t.window_index + 1 }
    match t2.windows.get? t2.window_index with
    | none => none
    | some w => some (t2, w)

/-- `Tree::previous_window`. -/
def FocusTree.previous_window (t : FocusTree) : Option (FocusTree × Nat) :=
  if t.window_index = 0 then
    match usizeSub t.windows.length 1 with
    | none => none
    | some last =>
      let t2 := { t with window_index := last }
      match t2.windows.get? t2.window_index with
      | none => none
      | some w => some (t2, w)
  else
    let t2 := { t with window_index := t.window_index - 1 }
    match t2.windows.get? t2.window_index with
    | none => none
    | some w => some (t2, w)

/-- `focus::Node`, restricted to inner-node and leaf navigation. -/
structure FocusNode where
  nodes : List Nat
  leaves : List Nat
  node_index : Nat
  leaf_index : Nat
  deriving DecidableEq

/-- `Node::next_node`, transcribed with its branches as written: past the
end it *increments further* (and then indexes out of bounds), otherwise it
resets to `0` — the two branch bodies are swapped relative to
`Node::next_leaf`. -/
def FocusNode.next_node (n : FocusNode) : Option (FocusNode × Nat) :=
  match usizeSub n.nodes.length 1 with
  | none => none
  | some last =>
    let n2 := if n.node_index + 1 > last then { n with node_index := n.node_index + 1 }
      else { n with node_index := 0 }
    match n2.nodes.get? n2.node_index with
    | none => none
    | some v => some (n2, v)

/-- `Node::next_leaf` (the correct pattern `next_node` was presumably meant
to follow). -/
def FocusNode.next_leaf (n : FocusNode) : Option (FocusNode × Nat) :=
  match usizeSub n.leaves.length 1 with
  | none => none
  | some last =>
    let n2 := if n.leaf_index = last then { n with leaf_index := 0 }
      else { n with leaf_index := n.leaf_index + 1 }
    match n2.leaves.get? n2.leaf_index with
    | none => none
    | some v => some (n2, v)

/-! ## Parser lemmas -/

/-- An alphanumeric character differs from any non-alphanumeric one. -/
theorem ne_char_of_isAlphanum {c x : Char} (hc : c.isAlphanum = true)
    (hx : x.isAlphanum = false) : c ≠ x := by
  intro h
  subst h
  rw [hc] at hx
  exact Bool.noConfusion hx

/-- `space0` does not consume an alphanumeric head. -/
theorem space0_cons_alphanum {c : Char} {rest : List Char} (hc : c.isAlphanum = true) :
    space0 (c :: rest) = c :: rest := by
  have h1 : c ≠ ' ' := ne_char_of_isAlphanum hc (by decide)
  have h2 : c ≠ '\t' := ne_char_of_isAlphanum hc (by decide)
  unfold space0
  rw [List.dropWhile_cons]
  simp [h1, h2]

/-- `tag` fails on a mismatched head. -/
theorem tag_cons_ne {t c : Char} {ts s : List Char} (h : ¬ t = c) :
    tag (t :: ts) (c :: s) = none := by
  unfold tag
  simp [h]

/-- `Command.separator` is the identity on input with an alphanumeric head. -/
theorem separator_alphanum {c : Char} {rest : List Char} (hc : c.isAlphanum = true) :
    Command.separator (c :: rest) = (c :: rest, false) := by
  unfold Command.separator
  simp only [space0_cons_alphanum hc,
    tag_cons_ne (show ¬ '+' = c from Ne.symm (ne_char_of_isAlphanum hc (by decide)))]

/-- `Command.parse_mod` fails on input with an alphanumeric head. -/
theorem parse_mod_alphanum {c : Char} {rest : List Char} (hc : c.isAlphanum = true) :
    Command.parse_mod (c :: rest) = none := by
  unfold Command.parse_mod
  rw [separator_alphanum hc]
  simp [tag_cons_ne (Ne.symm (ne_char_of_isAlphanum hc (by decide)) :
    ¬ '<' = c)]

/-- `Command.is_modifier` answers `false` on input with an alphanumeric head. -/
theorem is_modifier_alphanum {c : Char} {rest : List Char} (hc : c.isAlphanum = true) :
    Command.is_modifier (c :: rest) = false := by
  unfold Command.is_modifier
  rw [separator_alphanum hc]
  rw [parse_mod_alphanum hc]
  rfl

/-- `Command.parse_mods` consumes nothing from input with an alphanumeric
head. -/
theorem parse_mods_alphanum {c : Char} {rest : List Char} (hc : c.isAlphanum = true) :
    Command.parse_mods (c :: rest) = some (c :: rest, Modifiers.new) := by
  unfold Command.parse_mods
  rw [Command.parse_mods_go]
  rw [is_modifier_alphanum hc]
  simp

/-- `takeWhile` keeps an all-matching list whole. -/
theorem takeWhile_all {p : Char → Bool} {l : List Char} (h : ∀ c ∈ l, p c = true) :
    l.takeWhile p = l := by
  induction l with
  | nil => rfl
  | cons a l ih =>
    rw [List.takeWhile_cons]
    simp only [h a (by simp)]
    rw [ih fun c hc => h c (by simp [hc])]
    simp

/-- `dropWhile` empties an all-matching list. -/
theorem dropWhile_all {p : Char → Bool} {l : List Char} (h : ∀ c ∈ l, p c = true) :
    l.dropWhile p = [] := by
  induction l with
  | nil => rfl
  | cons a l ih =>
    rw [List.dropWhile_cons]
    simp only [h a (by simp)]
    exact ih fun c hc => h c (by simp [hc])

/-- `Command.word` consumes an entire nonempty alphanumeric token. -/
theorem word_alphanum {c : Char} {rest : List Char}
    (h2 : ∀ x ∈ c :: rest, x.isAlphanum = true) :
    Command.word (c :: rest) = some ([], c :: rest) := by
  unfold Command.word alphanumeric1
  rw [space0_cons_alphanum (h2 c (by simp))]
  simp only [takeWhile_all h2, dropWhile_all h2]
  simp

/-! ## Claims C3, C4 and C10: the chord parser and renderer -/

/-- C3, counterexample: the claim "rendering a chord and parsing the
result yields an equal chord (up to the uppercase exception)" fails
already for the chord `control + a`: `Display` emits the token `<Cr>`,
which `into_mods` (matching only lowercase `cr`/`control`/…) treats as an
unknown bracket contributing no modifier, so the parse returns `a` with no
modifiers — not equal to the original, and the base `a` is not
all-uppercase, so the claim's exception does not apply. -/
theorem C3_round_trip_counterexample :
    Command.render ⟨"a".data, ⟨false, true, false, false⟩⟩ = "<Cr> + a".data
    ∧ Command.parse_cmd "<Cr> + a".data = .ok ⟨"a".data, Modifiers.new⟩
    ∧ decide ((⟨"a".data, Modifiers.new⟩ : Command)
        = ⟨"a".data, ⟨false, true, false, false⟩⟩) = false :=
  ⟨by decide, by rfl, by decide⟩

/-- C3 (amended): for every chord whose modifier set is empty, rendering
emits the bare key and parsing it back returns the same key, with the
shift flag forced on exactly when the key equals its own uppercasing — so
the round trip holds on empty modifier sets, but not universally (the
`control + a` counterexample above fails, its `<Cr>` token being outside
the parser's lowercase vocabulary).  A chord with a modifier set may
still round trip: `shift + A` renders to `<Sh> + A`, whose unknown `<Sh>`
bracket is consumed contributing no flag, and the all-uppercase base
re-forces shift, reproducing the original chord. -/
theorem C3_round_trip_amended :
    (∀ key : List Char, key ≠ [] → (∀ c ∈ key, c.isAlphanum = true) →
      Command.parse_cmd (Command.render ⟨key, Modifiers.new⟩) =
        .ok ⟨key, if key = toUppercase key then ⟨true, false, false, false⟩
          else Modifiers.new⟩)
    ∧ Command.render ⟨"A".data, MState.SHIFT⟩ = "<Sh> + A".data
    ∧ Command.parse_cmd "<Sh> + A".data = .ok ⟨"A".data, MState.SHIFT⟩ := by
  refine ⟨?_, by decide, by rfl⟩
  intro key h1 h2
  obtain ⟨c, rest, rfl⟩ : ∃ c rest, key = c :: rest := by
    cases key with
    | nil => exact absurd rfl h1
    | cons c rest => exact ⟨c, rest, rfl⟩
  have hrender : Command.render ⟨c :: rest, Modifiers.new⟩ = c :: rest := rfl
  rw [hrender]
  unfold Command.parse_cmd Command.parse_str
  rw [parse_mods_alphanum (h2 c (by simp))]
  simp only [Option.bind_eq_bind, Option.some_bind, word_alphanum h2, Option.pure_def]
  split <;> rfl

/-- C3 witness: the amended round trip applied to the concrete key `q`. -/
theorem C3_round_trip_amended_witness :
    Command.parse_cmd (Command.render ⟨"q".data, Modifiers.new⟩) =
      .ok ⟨"q".data, if "q".data = toUppercase "q".data then ⟨true, false, false, false⟩
        else Modifiers.new⟩ :=
  C3_round_trip_amended.1 "q".data (by decide) (by decide)

/-- C4, counterexample: parsing `A` and parsing `<shift> + a` both force
the shift flag, but the resulting chords are *not* equal — the derived
structural equality of `Command` compares the stored base key
case-sensitively, and the keys are `A` and `a` respectively. -/
theorem C4_uppercase_shift_counterexample :
    Command.parse_cmd "A".data = .ok ⟨"A".data, MState.SHIFT⟩
    ∧ Command.parse_cmd "<shift> + a".data = .ok ⟨"a".data, MState.SHIFT⟩
    ∧ decide ((⟨"A".data, MState.SHIFT⟩ : Command) = ⟨"a".data, MState.SHIFT⟩) = false :=
  ⟨by rfl, by rfl, by decide⟩

/-- C4 (amended): parsing `A` with no explicit modifier and parsing
`<shift> + a` yield chords with *identical modifier sets* (shift forced on
in both), but the chords themselves are unequal: `Command` equality is
structural and case-sensitive on the base key, so case *is* significant
for chord equality, contrary to the claim. -/
theorem C4_uppercase_shift_amended :
    (Command.parse_cmd "A".data).toOption.map Command.mods
      = (Command.parse_cmd "<shift> + a".data).toOption.map Command.mods
    ∧ Command.parse_cmd "A".data = .ok ⟨"A".data, MState.SHIFT⟩
    ∧ decide ((⟨"A".data, MState.SHIFT⟩ : Command) = ⟨"a".data, MState.SHIFT⟩) = false :=
  ⟨by rfl, by rfl, by decide⟩

/-- C10: `Modifiers::is_none` answers `true` exactly when all four flags
are set (the conjunction written in the source, not the negation its name
suggests); consequently `Display for Command` prints a chord with all four
modifiers as the bare key, while a chord with no modifiers takes the
modifier-prefix branch, whose prefix renders as the empty string. -/
theorem C10_is_none_inverted :
    (∀ m : Modifiers, m.is_none = true ↔ m = ⟨true, true, true, true⟩)
    ∧ (∀ k : List Char, Command.render ⟨k, ⟨true, true, true, true⟩⟩ = k)
    ∧ Modifiers.is_none Modifiers.new = false
    ∧ Modifiers.render Modifiers.new = ""
    ∧ (∀ k : List Char,
        Command.render ⟨k, Modifiers.new⟩ = (Modifiers.render Modifiers.new).data ++ k) := by
  refine ⟨?_, fun k => rfl, rfl, rfl, fun k => rfl⟩
  intro m
  rcases m with ⟨s, c, a, u⟩
  cases s <;> cases c <;> cases a <;> cases u <;> decide

/-- C10 witness: the characterization applied at concrete modifier sets. -/
theorem C10_is_none_inverted_witness :
    Modifiers.is_none ⟨true, true, true, true⟩ = true
    ∧ Command.render ⟨"a".data, ⟨true, true, true, true⟩⟩ = "a".data :=
  ⟨(C10_is_none_inverted.1 ⟨true, true, true, true⟩).mpr rfl,
    C10_is_none_inverted.2.1 "a".data⟩

/-! ## Claims C1 and C2: navigation panics -/

/-- The failing input for C1: one surface containing two nodes, the node
cursor on the first entry of the two-element filtered id list `[0, 1]`. -/
def c1Records : List Record := [⟨0, 0, 0⟩, ⟨0, 1, 0⟩]

/-- The `TabState` over `c1Records`, cursors at the first tab. -/
def c1State : TabState :=
  ⟨c1Records, Records.surfaces c1Records, Records.nodes c1Records,
    Records.tabs c1Records, some 0, some 0, some 0, 0, 0, 0⟩

/-- C1: the claim promises that decrementing with the cursor at the first
position of an `N ≥ 2` filtered id list wraps to position `N - 1`, at
every level.  At the node level it does not: the wrap branch of
`TabState::decrement_node` is guarded by `node_len == 0` (dead code) where
its own comment describes the `current == 0` case, so a cursor at
position `0` of the id list `[0, 1]` reaches `node_ids[current - 1]` and
underflows `usize` — a panic (`none`) instead of the promised wrap.
(`decrement_tab` and `decrement_surface` implement the wrap correctly,
which shows the intent.) -/
theorem C1_decrement_node_underflows :
    Records.node_ids c1State.records 0 = [0, 1]
    ∧ position (fun v => v = c1State.node) (Records.node_ids c1State.records 0) = some 0
    ∧ TabState.decrement_node c1State = none :=
  ⟨by decide, by decide, by rfl⟩

/-- C2: the claim promises that no navigation operation panics, on every
state including empty collections and cursors at the last element.  Two
refutations from the focus tree: `Node::next_node` with the cursor on the
last of two inner nodes takes the (swapped) increment branch and indexes
`nodes[2]`, out of bounds; `Tree::next_window` on an empty window list
evaluates `windows.len() - 1`, a `usize` underflow.  Both panic
(`none`). -/
theorem C2_focus_navigation_panics :
    FocusNode.next_node ⟨[10, 11], [], 1, 0⟩ = none
    ∧ FocusTree.next_window ⟨[], 0⟩ = none :=
  ⟨by rfl, by rfl⟩

/-! ## Claim C5: one-shot group mode -/

/-- A group named `g`, bound in `normal`, for the C5 refutation. -/
def c5Group : CommandGroup := ⟨"g", "Group", ⟨"g".data, Modifiers.new⟩, "helptext"⟩

/-- A binding table with a `normal` mode containing the group trigger and
a `g` mode containing one action binding. -/
def c5Map : ChoiceMap :=
  [("normal", [(⟨"g".data, Modifiers.new⟩, .Commands c5Group)]),
   ("g", [(⟨"x".data, Modifiers.new⟩, .Acts [.Be])])]

/-- C5, counterexample: after the group trigger switches the mode to `g`,
a second chord that misses in `g` leaves the mode at `g` — the dispatcher
does *not* return unconditionally to `normal` after one lookup, and is in
a non-`normal` mode for two consecutive lookups. -/
theorem C5_one_shot_counterexample :
    runStep c5Map "normal" ⟨"g".data, Modifiers.new⟩ = ("g", [])
    ∧ runStep c5Map "g" ⟨"z".data, Modifiers.new⟩ = ("g", [])
    ∧ decide (("g" : String) = "normal") = false :=
  ⟨by rfl, by rfl, by decide⟩

/-- C5 (amended): a lookup that finds a group reference switches the mode
to the group's id, and the mode returns to `normal` only when a lookup
finds an `Acts` binding; a lookup miss — and likewise an active mode
absent from the table — leaves the mode unchanged, so a non-`normal` mode
can persist across consecutive lookups. -/
theorem C5_one_shot_amended (cm : ChoiceMap) (mode : String) (cmd : Command) :
    (∀ choices g, assocLookup cm mode = some choices →
      assocLookup choices cmd = some (.Commands g) →
      runStep cm mode cmd = (g.id, []))
    ∧ (∀ choices a, assocLookup cm mode = some choices →
      assocLookup choices cmd = some (.Acts a) →
      runStep cm mode cmd = ("normal", a))
    ∧ (∀ choices, assocLookup cm mode = some choices →
      assocLookup choices cmd = none →
      runStep cm mode cmd = (mode, []))
    ∧ (assocLookup cm mode = none → runStep cm mode cmd = (mode, [])) := by
  refine ⟨?_, ?_, ?_, ?_⟩
  · intro choices g h1 h2
    unfold runStep
    rw [h1]
    dsimp only
    rw [h2]
  · intro choices a h1 h2
    unfold runStep
    rw [h1]
    dsimp only
    rw [h2]
  · intro choices h1 h2
    unfold runStep
    rw [h1]
    dsimp only
    rw [h2]
  · intro h1
    unfold runStep
    rw [h1]

/-- C5 witness: the amended characterization applied to the concrete
table: the `x` chord inside mode `g` dispatches its actions and resets
the mode to `normal`. -/
theorem C5_one_shot_amended_witness :
    runStep c5Map "g" ⟨"x".data, Modifiers.new⟩ = ("normal", [.Be]) :=
  (C5_one_shot_amended c5Map "g" ⟨"x".data, Modifiers.new⟩).2.1
    [(⟨"x".data, Modifiers.new⟩, .Acts [.Be])] [.Be] (by rfl) (by rfl)

/-! ## Claim C6: cursor repair in `update_active_*` -/

/-- `update_active_surface` fails (no repair) whenever the cursor is out of
bounds for the surfaces list. -/
theorem update_active_surface_out_of_bounds (s : TabState)
    (h : s.surfaces.length ≤ s.surface) :
    TabState.update_active_surface s
      = (s, false, [⟨.warn, "Surface index is out of bounds."⟩]) := by
  unfold TabState.update_active_surface
  rw [if_pos (Or.inr h)]

/-- `update_active_node` repairs an invalid node cursor to the first valid
node id and reports success. -/
theorem update_active_node_repair (s : TabState) (surf i : Nat) (rest : List Nat) (v : Nat)
    (h1 : s.surface_index = some surf)
    (h2 : Records.node_ids s.records surf = i :: rest)
    (h3 : (Records.node_ids s.records surf).contains s.node = false)
    (h4 : s.nodes.get? i = some v) :
    TabState.update_active_node s = some ({ s with node_index := some v }, true,
      [⟨.info, "Node index " ++ toString s.node ++ " is invalid for active surface."⟩,
       ⟨.success, "Setting node to first value in index: " ++ toString v⟩]) := by
  rw [h2] at h3
  unfold TabState.update_active_node
  rw [h1]
  dsimp only
  rw [h2]
  simp only [List.isEmpty_cons, Bool.false_eq_true, if_false, h3]
  dsimp only [List.get?]
  rw [h4]

/-- `update_active_tab` repairs an invalid tab cursor to the first valid
tab id and reports success. -/
theorem update_active_tab_repair (s : TabState) (nd i : Nat) (rest : List Nat) (v : Nat)
    (h1 : s.node_index = some nd)
    (h2 : Records.tab_ids s.records nd = i :: rest)
    (h3 : (Records.tab_ids s.records nd).contains s.tab = false)
    (h4 : s.tabs.get? i = some v) :
    TabState.update_active_tab s = some ({ s with tab_index := some v }, true,
      [⟨.trace, "Tab index " ++ toString s.tab ++ " is invalid for active node."⟩,
       ⟨.success, "Setting tab to first value in index: " ++ toString v⟩,
       ⟨.success, "Selecting new tab."⟩]
        ++ TabState.select_current_tab_msgs { s with tab_index := some v }) := by
  rw [h2] at h3
  unfold TabState.update_active_tab
  rw [h1]
  dsimp only
  rw [h2]
  simp only [List.isEmpty_cons, Bool.false_eq_true, if_false, h3]
  dsimp only [List.get?]
  rw [h4]

/-- The C6 counterexample state: one surface in the list, cursor `1` (out
of bounds). -/
def c6State : TabState :=
  ⟨[⟨0, 0, 0⟩], [0], [0], [0], some 0, some 0, some 0, 1, 0, 0⟩

/-- C6, counterexample: the claim promises that at *every* level a cursor
absent from the filtered list snaps to the first id with success reported;
at the surface level `update_active_surface` instead reports failure and
repairs nothing. -/
theorem C6_repair_counterexample :
    TabState.update_active_surface c6State
      = (c6State, false, [⟨.warn, "Surface index is out of bounds."⟩]) := by rfl

/-- C6 (amended): the node and tab levels repair as claimed — a stored
cursor absent from the freshly filtered id list snaps the active id to the
first id of that list and reports success — but the surface level does
not: an out-of-bounds surface cursor makes `update_active_surface` report
failure and leave the active surface unchanged. -/
theorem C6_repair_amended :
    (∀ s : TabState, s.surfaces.length ≤ s.surface →
      TabState.update_active_surface s
        = (s, false, [⟨.warn, "Surface index is out of bounds."⟩]))
    ∧ (∀ (s : TabState) (surf i : Nat) (rest : List Nat) (v : Nat),
      s.surface_index = some surf →
      Records.node_ids s.records surf = i :: rest →
      (Records.node_ids s.records surf).contains s.node = false →
      s.nodes.get? i = some v →
      TabState.update_active_node s = some ({ s with node_index := some v }, true,
        [⟨.info, "Node index " ++ toString s.node ++ " is invalid for active surface."⟩,
         ⟨.success, "Setting node to first value in index: " ++ toString v⟩]))
    ∧ (∀ (s : TabState) (nd i : Nat) (rest : List Nat) (v : Nat),
      s.node_index = some nd →
      Records.tab_ids s.records nd = i :: rest →
      (Records.tab_ids s.records nd).contains s.tab = false →
      s.tabs.get? i = some v →
      TabState.update_active_tab s = some ({ s with tab_index := some v }, true,
        [⟨.trace, "Tab index " ++ toString s.tab ++ " is invalid for active node."⟩,
         ⟨.success, "Setting tab to first value in index: " ++ toString v⟩,
         ⟨.success, "Selecting new tab."⟩]
          ++ TabState.select_current_tab_msgs { s with tab_index := some v })) :=
  ⟨update_active_surface_out_of_bounds, update_active_node_repair, update_active_tab_repair⟩

/-- A state whose node cursor `5` is stale for the two-node surface. -/
def c6wState : TabState :=
  ⟨[⟨0, 0, 0⟩, ⟨0, 1, 0⟩], [0], [0, 1], [0], some 0, some 0, some 0, 0, 5, 0⟩

/-- C6 witness: the amended theorem applied to concrete states — the stale
node cursor `5` snaps to the first valid node with success, and the
out-of-bounds surface cursor of `c6wSurfaceState` reports failure. -/
theorem C6_repair_amended_witness :
    TabState.update_active_node c6wState = some ({ c6wState with node_index := some 0 }, true,
      [⟨.info, "Node index " ++ toString (5 : Nat) ++ " is invalid for active surface."⟩,
       ⟨.success, "Setting node to first value in index: " ++ toString (0 : Nat)⟩])
    ∧ TabState.update_active_surface ⟨[], [7], [], [], none, none, none, 3, 0, 0⟩
      = (⟨[], [7], [], [], none, none, none, 3, 0, 0⟩, false,
        [⟨.warn, "Surface index is out of bounds."⟩]) :=
  ⟨C6_repair_amended.2.1 c6wState 0 0 [1] 0 rfl (by decide) (by decide) rfl,
    C6_repair_amended.1 ⟨[], [7], [], [], none, none, none, 3, 0, 0⟩ (by decide)⟩

/-! ## Claim C7: singleton lists -/

/-- `increment_surface` over a one-element surfaces list: no movement,
`false`, singleton message (for any cursor value). -/
theorem increment_surface_singleton (s : TabState) (h : s.surfaces.length = 1) :
    TabState.increment_surface s = (s, false, [⟨.warn,
      "Only one surface in tree. Already on current surface "
        ++ toString s.surface ++ "."⟩]) := by
  obtain ⟨x, hx⟩ := List.length_eq_one.mp h
  have hne : ¬ (s.surfaces.isEmpty = true) := by simp [hx]
  have hlt : ¬ (s.surfaces.length > s.surface + 1) := by omega
  unfold TabState.increment_surface
  dsimp only
  rw [if_neg hne, if_neg hlt, if_pos h]

/-- `decrement_surface` over a one-element surfaces list with the cursor
on it: no movement, `false`, singleton message at `info` level. -/
theorem decrement_surface_singleton (s : TabState) (h : s.surfaces.length = 1)
    (h0 : s.surface = 0) :
    TabState.decrement_surface s = (s, false, [⟨.info,
      "Only one surface in tree. Already on current surface "
        ++ toString s.surface ++ "."⟩]) := by
  obtain ⟨x, hx⟩ := List.length_eq_one.mp h
  have hne : ¬ (s.surfaces.isEmpty = true) := by simp [hx]
  unfold TabState.decrement_surface
  dsimp only
  rw [if_neg hne, if_pos ⟨h, h0⟩]

/-- `increment_node` over a singleton filtered node-id list holding the
cursor: no movement, `false`, singleton message. -/
theorem increment_node_singleton (s : TabState) (surf : Nat)
    (h1 : s.surface_index = some surf)
    (h2 : Records.node_ids s.records surf = [s.node]) :
    TabState.increment_node s = some (s, false, [⟨.warn,
      "Only one node in tree. Already on current node " ++ toString s.node ++ "."⟩]) := by
  unfold TabState.increment_node
  rw [h1]
  dsimp only
  rw [h2]
  simp [position]

/-- `decrement_node` over a singleton filtered node-id list holding the
cursor: no movement, `false`, singleton message. -/
theorem decrement_node_singleton (s : TabState) (surf : Nat)
    (h1 : s.surface_index = some surf)
    (h2 : Records.node_ids s.records surf = [s.node]) :
    TabState.decrement_node s = some (s, false, [⟨.warn,
      "Only one node in tree. Already on current node " ++ toString s.node ++ "."⟩]) := by
  unfold TabState.decrement_node
  rw [h1]
  dsimp only
  rw [h2]
  simp [position]

/-- `increment_tab` over a singleton filtered tab-id list holding the
cursor: no movement, `false`, singleton message at `info` level. -/
theorem increment_tab_singleton (s : TabState) (nd : Nat)
    (h1 : s.node_index = some nd)
    (h2 : Records.tab_ids s.records nd = [s.tab]) :
    TabState.increment_tab s = some (s, false, [⟨.info,
      "Only one tab in tree. Already on current tab " ++ toString s.tab ++ "."⟩]) := by
  unfold TabState.increment_tab
  rw [h1]
  dsimp only
  rw [h2]
  simp [position]

/-- `decrement_tab` over a singleton filtered tab-id list holding the
cursor: no movement, `false`, singleton message at `info` level. -/
theorem decrement_tab_singleton (s : TabState) (nd : Nat)
    (h1 : s.node_index = some nd)
    (h2 : Records.tab_ids s.records nd = [s.tab]) :
    TabState.decrement_tab s = some (s, false, [⟨.info,
      "Only one tab in tree. Already on current tab " ++ toString s.tab ++ "."⟩]) := by
  unfold TabState.decrement_tab
  rw [h1]
  dsimp only
  rw [h2]
  simp [position]

/-- `increment_surface` over an empty surfaces list: failure with the
empty-tree message. -/
theorem increment_surface_empty (s : TabState) (h : s.surfaces = []) :
    TabState.increment_surface s
      = (s, false, [⟨.warn, "Cannot increment surface on an empty tree."⟩]) := by
  unfold TabState.increment_surface
  rw [h]
  rfl

/-- `decrement_surface` over an empty surfaces list. -/
theorem decrement_surface_empty (s : TabState) (h : s.surfaces = []) :
    TabState.decrement_surface s
      = (s, false, [⟨.warn, "Cannot decrement surface on an empty tree."⟩]) := by
  unfold TabState.decrement_surface
  rw [h]
  rfl

/-- `increment_node` over an empty filtered node-id list. -/
theorem increment_node_empty (s : TabState) (surf : Nat)
    (h1 : s.surface_index = some surf)
    (h2 : Records.node_ids s.records surf = []) :
    TabState.increment_node s
      = some (s, false, [⟨.warn, "Cannot increment node on an empty tree."⟩]) := by
  unfold TabState.increment_node
  rw [h1]
  dsimp only
  rw [h2]
  rfl

/-- `decrement_node` over an empty filtered node-id list. -/
theorem decrement_node_empty (s : TabState) (surf : Nat)
    (h1 : s.surface_index = some surf)
    (h2 : Records.node_ids s.records surf = []) :
    TabState.decrement_node s
      = some (s, false, [⟨.warn, "Cannot decrement node on an empty tree."⟩]) := by
  unfold TabState.decrement_node
  rw [h1]
  dsimp only
  rw [h2]
  rfl

/-- `increment_tab` over an empty filtered tab-id list. -/
theorem increment_tab_empty (s : TabState) (nd : Nat)
    (h1 : s.node_index = some nd)
    (h2 : Records.tab_ids s.records nd = []) :
    TabState.increment_tab s
      = some (s, false, [⟨.warn, "Cannot increment tab on an empty tree."⟩]) := by
  unfold TabState.increment_tab
  rw [h1]
  dsimp only
  rw [h2]
  rfl

/-- `decrement_tab` over an empty filtered tab-id list. -/
theorem decrement_tab_empty (s : TabState) (nd : Nat)
    (h1 : s.node_index = some nd)
    (h2 : Records.tab_ids s.records nd = []) :
    TabState.decrement_tab s
      = some (s, false, [⟨.warn, "Cannot decrement tab on an empty tree."⟩]) := by
  unfold TabState.decrement_tab
  rw [h1]
  dsimp only
  rw [h2]
  rfl

/-- Two strings with distinct head characters differ. -/
theorem string_head_ne {a b : String} {c d : Char} (ha : a.data.head? = some c)
    (hb : b.data.head? = some d) (hcd : c ≠ d) : a ≠ b := by
  intro he
  rw [he] at ha
  rw [ha] at hb
  exact hcd (Option.some.inj hb)

/-- The head character of `p ++ t ++ u` is the head character of `p`. -/
theorem append2_head (p t u : String) {c : Char} (hp : p.data.head? = some c) :
    (p ++ t ++ u).data.head? = some c := by
  have h1 : (p ++ t ++ u).data = p.data ++ (t.data ++ u.data) := by
    rw [String.data_append, String.data_append, List.append_assoc]
  rw [h1]
  cases hd : p.data with
  | nil => rw [hd] at hp; exact absurd hp (by simp)
  | cons x xs =>
    rw [hd] at hp
    simp only [List.head?_cons, Option.some.injEq] at hp
    rw [List.cons_append]
    simp [hp]

/-- The singleton messages (which start with `Only`) are distinguishable
from the empty-list messages (which start with `Cannot`) for any cursor
value. -/
theorem singleton_msgs_ne_empty_msgs (i : Nat) :
    ("Only one surface in tree. Already on current surface " ++ toString i ++ "." : String)
      ≠ "Cannot increment surface on an empty tree."
    ∧ ((⟨.info, "Only one surface in tree. Already on current surface "
        ++ toString i ++ "."⟩ : LogMsg)
      ≠ ⟨.warn, "Cannot decrement surface on an empty tree."⟩)
    ∧ ("Only one node in tree. Already on current node " ++ toString i ++ "." : String)
      ≠ "Cannot increment node on an empty tree."
    ∧ ("Only one node in tree. Already on current node " ++ toString i ++ "." : String)
      ≠ "Cannot decrement node on an empty tree."
    ∧ ((⟨.info, "Only one tab in tree. Already on current tab " ++ toString i ++ "."⟩ : LogMsg)
      ≠ ⟨.warn, "Cannot increment tab on an empty tree."⟩)
    ∧ ((⟨.info, "Only one tab in tree. Already on current tab " ++ toString i ++ "."⟩ : LogMsg)
      ≠ ⟨.warn, "Cannot decrement tab on an empty tree."⟩) := by
  refine ⟨?_, ?_, ?_, ?_, ?_, ?_⟩
  · exact string_head_ne (append2_head _ _ _ (by decide)) (by decide)
      (by decide : 'O' ≠ 'C')
  · intro he
    exact LogLevel.noConfusion (congrArg LogMsg.level he)
  · exact string_head_ne (append2_head _ _ _ (by decide)) (by decide)
      (by decide : 'O' ≠ 'C')
  · exact string_head_ne (append2_head _ _ _ (by decide)) (by decide)
      (by decide : 'O' ≠ 'C')
  · intro he
    exact LogLevel.noConfusion (congrArg LogMsg.level he)
  · intro he
    exact LogLevel.noConfusion (congrArg LogMsg.level he)

/-- The C7 counterexample state: a one-element surfaces list with the
cursor out of range at `1`. -/
def c7State : TabState :=
  ⟨[⟨0, 0, 0⟩], [0], [0], [0], some 0, some 0, some 0, 1, 0, 0⟩

/-- C7, counterexample: the claim promises that incrementing or
decrementing a cursor over a length-1 list never changes the cursor;
but `decrement_surface` with the (out-of-range) cursor `1` over the
one-element surfaces list decrements it to `0` and reports success. -/
theorem C7_singleton_counterexample :
    TabState.decrement_surface c7State
      = ({ c7State with surface := 0 }, true,
        [⟨.success, "Decrementing surface index."⟩,
         ⟨.success, "Surface index set to " ++ toString (0 : Nat)⟩]) := by rfl

/-- C7 (amended): incrementing or decrementing a cursor that is *valid*
for its length-1 filtered id list (surface cursor `0`; node/tab cursor
equal to the single id) never changes the cursor and reports `false` with
a singleton-specific "only one …" message; the empty-list case reports
`false` with a "Cannot …" message; and the two outcomes are
distinguishable — by message text, and for the `info`-level singleton
reports also by log level.  (An out-of-range surface cursor over a
singleton list is instead moved with success reported, which is what
forces the validity proviso — see the counterexample.) -/
theorem C7_singleton_amended :
    (∀ s : TabState, s.surfaces.length = 1 →
      TabState.increment_surface s = (s, false, [⟨.warn,
        "Only one surface in tree. Already on current surface "
          ++ toString s.surface ++ "."⟩]))
    ∧ (∀ s : TabState, s.surfaces.length = 1 → s.surface = 0 →
      TabState.decrement_surface s = (s, false, [⟨.info,
        "Only one surface in tree. Already on current surface "
          ++ toString s.surface ++ "."⟩]))
    ∧ (∀ (s : TabState) (surf : Nat), s.surface_index = some surf →
      Records.node_ids s.records surf = [s.node] →
      TabState.increment_node s = some (s, false, [⟨.warn,
        "Only one node in tree. Already on current node " ++ toString s.node ++ "."⟩]))
    ∧ (∀ (s : TabState) (surf : Nat), s.surface_index = some surf →
      Records.node_ids s.records surf = [s.node] →
      TabState.decrement_node s = some (s, false, [⟨.warn,
        "Only one node in tree. Already on current node " ++ toString s.node ++ "."⟩]))
    ∧ (∀ (s : TabState) (nd : Nat), s.node_index = some nd →
      Records.tab_ids s.records nd = [s.tab] →
      TabState.increment_tab s = some (s, false, [⟨.info,
        "Only one tab in tree. Already on current tab " ++ toString s.tab ++ "."⟩]))
    ∧ (∀ (s : TabState) (nd : Nat), s.node_index = some nd →
      Records.tab_ids s.records nd = [s.tab] →
      TabState.decrement_tab s = some (s, false, [⟨.info,
        "Only one tab in tree. Already on current tab " ++ toString s.tab ++ "."⟩]))
    ∧ (∀ s : TabState, s.surfaces = [] →
      TabState.increment_surface s
        = (s, false, [⟨.warn, "Cannot increment surface on an empty tree."⟩]))
    ∧ (∀ s : TabState, s.surfaces = [] →
      TabState.decrement_surface s
        = (s, false, [⟨.warn, "Cannot decrement surface on an empty tree."⟩]))
    ∧ (∀ (s : TabState) (surf : Nat), s.surface_index = some surf →
      Records.node_ids s.records surf = [] →
      TabState.increment_node s
        = some (s, false, [⟨.warn, "Cannot increment node on an empty tree."⟩]))
    ∧ (∀ (s : TabState) (surf : Nat), s.surface_index = some surf →
      Records.node_ids s.records surf = [] →
      TabState.decrement_node s
        = some (s, false, [⟨.warn, "Cannot decrement node on an empty tree."⟩]))
    ∧ (∀ (s : TabState) (nd : Nat), s.node_index = some nd →
      Records.tab_ids s.records nd = [] →
      TabState.increment_tab s
        = some (s, false, [⟨.warn, "Cannot increment tab on an empty tree."⟩]))
    ∧ (∀ (s : TabState) (nd : Nat), s.node_index = some nd →
      Records.tab_ids s.records nd = [] →
      TabState.decrement_tab s
        = some (s, false, [⟨.warn, "Cannot decrement tab on an empty tree."⟩]))
    ∧ (∀ i : Nat,
      ("Only one surface in tree. Already on current surface "
          ++ toString i ++ "." : String)
        ≠ "Cannot increment surface on an empty tree."
      ∧ ((⟨.info, "Only one surface in tree. Already on current surface "
          ++ toString i ++ "."⟩ : LogMsg)
        ≠ ⟨.warn, "Cannot decrement surface on an empty tree."⟩)
      ∧ ("Only one node in tree. Already on current node " ++ toString i ++ "." : String)
        ≠ "Cannot increment node on an empty tree."
      ∧ ("Only one node in tree. Already on current node " ++ toString i ++ "." : String)
        ≠ "Cannot decrement node on an empty tree."
      ∧ ((⟨.info, "Only one tab in tree. Already on current tab "
          ++ toString i ++ "."⟩ : LogMsg)
        ≠ ⟨.warn, "Cannot increment tab on an empty tree."⟩)
      ∧ ((⟨.info, "Only one tab in tree. Already on current tab "
          ++ toString i ++ "."⟩ : LogMsg)
        ≠ ⟨.warn, "Cannot decrement tab on an empty tree."⟩)) :=
  ⟨increment_surface_singleton, decrement_surface_singleton, increment_node_singleton,
    decrement_node_singleton, increment_tab_singleton, decrement_tab_singleton,
    increment_surface_empty, decrement_surface_empty, increment_node_empty,
    decrement_node_empty, increment_tab_empty, decrement_tab_empty,
    singleton_msgs_ne_empty_msgs⟩

/-- A singleton state (one surface, one node, one tab) with all three
cursors valid. -/
def c7wState : TabState :=
  ⟨[⟨2, 3, 4⟩], [2], [3], [4], some 2, some 3, some 4, 0, 0, 0⟩

/-- C7 witness: the amended theorem applied at the concrete singleton
state, plus one message-distinguishability instance. -/
theorem C7_singleton_amended_witness :
    TabState.increment_surface c7wState = (c7wState, false, [⟨.warn,
      "Only one surface in tree. Already on current surface "
        ++ toString (0 : Nat) ++ "."⟩])
    ∧ TabState.increment_node c7wState = some (c7wState, false, [⟨.warn,
      "Only one node in tree. Already on current node " ++ toString (0 : Nat) ++ "."⟩])
    ∧ ("Only one surface in tree. Already on current surface "
        ++ toString (0 : Nat) ++ "." : String)
      ≠ "Cannot increment surface on an empty tree." :=
  ⟨C7_singleton_amended.1 c7wState rfl,
    C7_singleton_amended.2.2.1 c7wState 2 rfl (by decide),
    (C7_singleton_amended.2.2.2.2.2.2.2.2.2.2.2.2 0).1⟩

/-! ## Claims C8 and C9: configuration loading -/

/-- The keys of a TOML table (empty for non-tables). -/
def tomlKeys : Toml → List String
  | .table t => t.map Prod.fst
  | _ => []

/-- C8, counterexample: the claim promises that construction never panics
for *every* configuration input; but `with_config` unwraps the TOML parse
(panicking on text that is not valid TOML, the `none` argument here) and
indexes `config["groups"]` with the panicking `Index` impl (panicking on a
document without that key, the `some []` argument). -/
theorem C8_config_counterexample :
    ChoiceMap.with_config none = none ∧ ChoiceMap.with_config (some []) = none :=
  ⟨rfl, rfl⟩

/-- C8 (amended): construction returns normally — dropping malformed
entries, possibly yielding an empty table — for every configuration that
parses as TOML and contains top-level `groups` and `commands` keys;
configuration text that fails the TOML parse, or lacks either key, panics
at startup instead. -/
theorem C8_config_amended (config : List (String × Toml)) (groups commands : Toml)
    (h1 : assocLookup config "groups" = some groups)
    (h2 : assocLookup config "commands" = some commands) :
    ∃ cm : ChoiceMap, ChoiceMap.with_config (some config) = some cm := by
  unfold ChoiceMap.with_config
  dsimp only
  rw [h1]
  dsimp only
  rw [h2]
  cases ChoiceMap.from_toml groups <;> exact ⟨_, rfl⟩

/-- A well-formed (if useless) configuration: both top-level keys present. -/
def c8Config : List (String × Toml) := [("groups", .other), ("commands", .other)]

/-- C8 witness: the amended theorem applied to `c8Config`. -/
theorem C8_config_amended_witness :
    ∃ cm : ChoiceMap, ChoiceMap.with_config (some c8Config) = some cm :=
  C8_config_amended c8Config .other .other rfl rfl

/-- Lookup after an upsert: the new key shadows, other keys unaffected. -/
theorem assocLookup_upsert {α β : Type} [DecidableEq α]
    (m : List (α × β)) (k x : α) (v : β) :
    assocLookup (assocUpsert m k v) x = if x = k then some v else assocLookup m x := by
  by_cases hx : x = k
  · subst hx
    simp [assocUpsert, assocLookup, List.find?_cons]
  · rw [if_neg hx]
    unfold assocUpsert assocLookup
    have hkx : (decide ((k, v).1 = x)) = false := by
      simp only [decide_eq_false_iff_not]
      exact fun h => hx (Eq.symm h)
    rw [List.find?_cons, hkx]
    congr 1
    induction m with
    | nil => rfl
    | cons a m ih =>
      by_cases ha : a.1 = k
      · have h1 : (decide ¬ a.1 = k) = false := by simp [ha]
        have h2 : (decide (a.1 = x)) = false := by
          simp only [decide_eq_false_iff_not, ha]
          exact fun h => hx (Eq.symm h)
        simp only [List.filter_cons, h1, Bool.false_eq_true, if_false,
          List.find?_cons, h2]
        exact ih
      · have h1 : (decide ¬ a.1 = k) = true := by simp [ha]
        simp only [List.filter_cons, h1, if_true, List.find?_cons]
        cases hax : decide (a.1 = x) with
        | true => rfl
        | false => exact ih

/-- An association-list lookup succeeds exactly on stored keys. -/
theorem assocLookup_isSome_iff_mem {α β : Type} [DecidableEq α]
    (m : List (α × β)) (x : α) :
    (assocLookup m x).isSome = true ↔ x ∈ m.map Prod.fst := by
  induction m with
  | nil => simp [assocLookup]
  | cons a m ih =>
    unfold assocLookup at ih ⊢
    rw [List.find?_cons]
    by_cases h : a.1 = x
    · simp [h]
    · have h2 : (decide (a.1 = x)) = false := by simp [h]
      rw [h2]
      simp only [List.map_cons, List.mem_cons]
      rw [ih]
      constructor
      · exact Or.inr
      · intro hor
        rcases hor with he | hm
        · exact absurd (Eq.symm he) h
        · exact hm

/-- Keys reachable after folding upserts over `c` starting from `acc`. -/
theorem lookup_foldl_upsert_isSome {α β : Type} [DecidableEq α]
    (c : List (α × β)) :
    ∀ (acc : List (α × β)) (x : α),
      (assocLookup (c.foldl (fun a p => assocUpsert a p.1 p.2) acc) x).isSome = true →
      (assocLookup acc x).isSome = true ∨ x ∈ c.map Prod.fst := by
  induction c with
  | nil => exact fun acc x h => Or.inl h
  | cons p c ih =>
    intro acc x h
    rw [List.foldl_cons] at h
    rcases ih _ x h with h1 | h1
    · rw [assocLookup_upsert] at h1
      by_cases hx : x = p.1
      · right
        simp [hx]
      · rw [if_neg hx] at h1
        exact Or.inl h1
    · right
      simp [h1]

/-- Keys reachable after the `ChoiceMap::from_toml` fold. -/
theorem lookup_from_toml_foldl (t : List (String × Toml)) :
    ∀ (acc : ChoiceMap) (x : String),
      (assocLookup (t.foldl
        (fun cm kv =>
          match Choices.try_from_toml kv.2 with
          | some c => assocUpsert cm kv.1 c
          | none => cm) acc) x).isSome = true →
      (assocLookup acc x).isSome = true ∨ x ∈ t.map Prod.fst := by
  induction t with
  | nil => exact fun acc x h => Or.inl h
  | cons kv t ih =>
    intro acc x h
    rw [List.foldl_cons] at h
    rcases ih _ x h with h1 | h1
    · cases hc : Choices.try_from_toml kv.2 with
      | none =>
        rw [hc] at h1
        exact Or.inl h1
      | some c =>
        rw [hc] at h1
        rw [assocLookup_upsert] at h1
        by_cases hx : x = kv.1
        · right
          simp [hx]
        · rw [if_neg hx] at h1
          exact Or.inl h1
    · right
      simp [h1]

/-- Every mode name in a `ChoiceMap.from_toml` result is a key of the
source table. -/
theorem from_toml_modes_sub (value : Toml) (cm : ChoiceMap)
    (h : ChoiceMap.from_toml value = some cm) (x : String)
    (hx : (assocLookup cm x).isSome = true) : x ∈ tomlKeys value := by
  cases value with
  | vstr s => exact absurd h (by simp [ChoiceMap.from_toml])
  | other => exact absurd h (by simp [ChoiceMap.from_toml])
  | table t =>
    unfold ChoiceMap.from_toml at h
    dsimp only at h
    split at h
    · exact absurd h (by simp)
    · injection h with h
      subst h
      rcases lookup_from_toml_foldl t [] x hx with h1 | h1
      · exact absurd h1 (by simp [assocLookup])
      · exact h1

/-- One `ChoiceMap::command_group` step never introduces a new mode name. -/
theorem command_group_step_preserves (cm : ChoiceMap) (kv : String × Toml) (x : String)
    (h : (assocLookup (ChoiceMap.command_group_step cm kv) x).isSome = true) :
    (assocLookup cm x).isSome = true := by
  unfold ChoiceMap.command_group_step at h
  split at h
  case isTrue h1 =>
    split at h
    case h_1 cmds heq =>
      split at h
      case h_1 normal heq2 =>
        rw [assocLookup_upsert] at h
        by_cases hx : x = "normal"
        · subst hx
          rw [heq2]
          rfl
        · rw [if_neg hx] at h
          exact h
      case h_2 => exact h
    case h_2 => exact h
  case isFalse => exact h

/-- The `ChoiceMap::command_group` fold never introduces a new mode name. -/
theorem command_group_foldl_preserves (t : List (String × Toml)) :
    ∀ (cm : ChoiceMap) (x : String),
      (assocLookup (t.foldl ChoiceMap.command_group_step cm) x).isSome = true →
      (assocLookup cm x).isSome = true := by
  induction t with
  | nil => exact fun cm x h => h
  | cons kv t ih =>
    intro cm x h
    rw [List.foldl_cons] at h
    exact command_group_step_preserves _ _ _ (ih _ _ h)

/-- `ChoiceMap::command_group` never introduces a new mode name. -/
theorem command_group_preserves (cm : ChoiceMap) (value : Toml) (x : String)
    (h : (assocLookup (ChoiceMap.command_group cm value) x).isSome = true) :
    (assocLookup cm x).isSome = true := by
  cases value with
  | vstr s => exact h
  | other => exact h
  | table t =>
    unfold ChoiceMap.command_group at h
    dsimp only at h
    exact command_group_foldl_preserves t cm x h

/-- The groups table of the C9 refutation: one group `g1` with one valid
entry (`next_tab` bound to the chord `n`), and no `normal` group. -/
def c9Groups : Toml := .table [("g1", .table [("next_tab", .vstr "n")])]

/-- The full C9 configuration: the groups above, an empty commands table. -/
def c9Config : List (String × Toml) := [("groups", c9Groups), ("commands", .table [])]

/-- The binding table `with_config` produces from `c9Config`. -/
def c9Map : ChoiceMap :=
  [("g1", [(⟨"n".data, Modifiers.new⟩, .Acts [.DockAct .NextTab])])]

/-- C9, counterexample: a configuration whose groups table defines only
`g1` builds successfully into a table whose only mode is `g1` — no mode
named `normal` exists, contradicting the claim that every constructed
table contains one. -/
theorem C9_normal_counterexample :
    ChoiceMap.with_config (some c9Config) = some c9Map
    ∧ assocLookup c9Map "normal" = none :=
  ⟨by rfl, by rfl⟩

/-- C9 (amended): every mode name of a table built by `with_config` —
including `normal` — comes from a key of the groups table; a mode named
`normal` therefore exists only when the groups configuration defines one,
and the commands-table merge (`command_group`) adds no mode and silently
drops entries when its key names no existing mode or when no `normal` mode
exists. -/
theorem C9_normal_mode_amended (config : List (String × Toml)) (groups commands : Toml)
    (cm : ChoiceMap)
    (h1 : assocLookup config "groups" = some groups)
    (h2 : assocLookup config "commands" = some commands)
    (h3 : ChoiceMap.with_config (some config) = some cm)
    (x : String) (hx : (assocLookup cm x).isSome = true) :
    x ∈ tomlKeys groups := by
  unfold ChoiceMap.with_config at h3
  dsimp only at h3
  rw [h1] at h3
  dsimp only at h3
  rw [h2] at h3
  cases hf : ChoiceMap.from_toml groups with
  | none =>
    rw [hf] at h3
    injection h3 with h3
    subst h3
    have h4 := command_group_preserves _ _ _ hx
    exact absurd h4 (by simp [assocLookup])
  | some c =>
    rw [hf] at h3
    injection h3 with h3
    subst h3
    have h4 := command_group_preserves _ _ _ hx
    unfold assocExtend at h4
    rcases lookup_foldl_upsert_isSome c [] x h4 with h5 | h5
    · exact absurd h5 (by simp [assocLookup])
    · exact from_toml_modes_sub groups c hf x ((assocLookup_isSome_iff_mem c x).mpr h5)

/-- C9 witness: the amended theorem applied to the concrete `c9Config`:
the sole mode `g1` indeed names a key of the groups table. -/
theorem C9_normal_mode_amended_witness : ("g1" : String) ∈ tomlKeys c9Groups :=
  C9_normal_mode_amended c9Config c9Groups (.table []) c9Map rfl rfl rfl "g1" (by decide)

end Whimsy
